import Mathlib

/-!
# httpapi: token store, OAuth2 authenticator, refresh interceptor, request executor

A shallow embedding of the Go package `httpapi` (memstore.go, oauth2.go, noauth.go,
service.go).  Go pointers that may be nil are `Option` values, a Go result pair
`(value, error)` is a Lean pair of options, and stateful code passes its state
explicitly.  Calls into libraries (encoding/json, golang.org/x/oauth2, ctxhttp) are
parameters of the definitions that make them.
-/

namespace httpapi

/-! ## Errors and identities -/

/-- Go `error` values seen by the package: its three sentinel errors, the error
`fmt.Errorf("token cannot be empty")` of memStore.SaveToken, and errors produced by
library calls, identified by their message. -/
inductive Error where
  | errMissingAuthCode
  | errMissingUserID
  | errMissingTimeout
  | tokenCannotBeEmpty
  | external (msg : String)
  deriving DecidableEq, Repr

/-- The method `Error()` of an error value: its message. -/
def Error.Error : Error → String
  | .errMissingAuthCode => "missing authencation code"
  | .errMissingUserID => "missing user ID"
  | .errMissingTimeout => "missing timeout value in the configuration"
  | .tokenCannotBeEmpty => "token cannot be empty"
  | .external msg => msg

/-- The interface `User` of auth.go: a value answering `UserID()` and `AuthCode()`.
A nil `User` is `none : Option User`. -/
structure User where
  UserID : String
  AuthCode : String
  deriving DecidableEq, Repr

/-- Modelled from the spec: the token record `oauth2.Token`, whose declaration lives in
golang.org/x/oauth2 and not in this repository: access token string, token type,
refresh token string, absolute expiry timestamp (an instant in UTC, counted in seconds
from the Unix epoch), and the implementation-specific raw fields (absent, or a list of
named values). -/
structure Token where
  AccessToken : String
  TokenType : String
  RefreshToken : String
  Expiry : Int
  raw : Option (List (String × String))
  deriving DecidableEq, Repr

/-! ## memstore.go -/

/-- The two encoding/json calls made by the store at type `*oauth2.Token`:
`json.Marshal(token)` and `json.Unmarshal(val, tok)`.  `β` is the type of stored
values (`[]byte` in the source). -/
structure JSONCodec (β : Type) where
  Marshal : Token → Except Error β
  Unmarshal : β → Except Error Token

/-- The struct `memStore`: a map from UserID to serialized token.  The mutex is not
modelled; every operation below is one critical section. -/
structure memStore (β : Type) where
  store : String → Option β

/-- The constructor `NewMemStore`: the empty map. -/
def NewMemStore {β : Type} : memStore β :=
  ⟨fun _ => none⟩

/-- The method `memStore.GetToken`: look the UserID up, report `(nil, nil)` when it is
absent, otherwise decode the stored value. -/
def memStore.GetToken {β : Type} (json : JSONCodec β) (s : memStore β) (user : User) :
    (Option Token × Option Error) × memStore β :=
  match s.store user.UserID with
  | none => ((none, none), s)
  | some val =>
    match json.Unmarshal val with
    | .error err => ((none, some err), s)
    | .ok tok => ((some tok, none), s)

/-- The method `memStore.SaveToken`: reject a nil token, otherwise encode the token
and overwrite the entry of the UserID. -/
def memStore.SaveToken {β : Type} (json : JSONCodec β) (s : memStore β) (user : User)
    (token : Option Token) : Option Error × memStore β :=
  match token with
  | none => (some Error.tokenCannotBeEmpty, s)
  | some t =>
    match json.Marshal t with
    | .error err => (some err, s)
    | .ok data => (none, ⟨fun k => if k = user.UserID then some data else s.store k⟩)

/-- A JSON object with the four members `access_token`, `token_type`, `refresh_token`
and `expiry`: the json tags of the exported fields of `oauth2.Token`.  It stands for the
bytes that a sample codec keeps in the store. -/
structure TokenJSON where
  access_token : String
  token_type : String
  refresh_token : String
  expiry : Int
  deriving DecidableEq, Repr

/-- Whether a timestamp lies in the years 0 to 9999, from 0000-01-01T00:00:00Z to
9999-12-31T23:59:59Z: the timestamps that have an RFC 3339 form. -/
def time.printable (t : Int) : Bool :=
  decide (-62167219200 ≤ t) && decide (t ≤ 253402300799)

/-- A sample codec, used to instantiate the `JSONCodec` parameter at concrete values.
It behaves as encoding/json (library code, outside this repository) does on UTC
timestamps: `json.Marshal` writes the exported fields and fails on an expiry outside
the years 0 to 9999; `json.Unmarshal` fails on such an expiry too and otherwise fills a
fresh `oauth2.Token`, whose unexported raw fields stay nil.  Results about the store
that are not tied to concrete values are stated for every `JSONCodec`. -/
def encodingJSON : JSONCodec TokenJSON where
  Marshal := fun t =>
    if time.printable t.Expiry then
      .ok ⟨t.AccessToken, t.TokenType, t.RefreshToken, t.Expiry⟩
    else
      .error (Error.external "Time.MarshalJSON: year outside of range [0,9999]")
  Unmarshal := fun j =>
    if time.printable j.expiry then
      .ok ⟨j.access_token, j.token_type, j.refresh_token, j.expiry, none⟩
    else
      .error (Error.external "parsing time: year outside of range [0,9999]")

/-! ## oauth2.go -/

/-- The interface `TokenStore` over a store state `σ`: each method returns its Go
result together with the state it leaves. -/
structure TokenStore (σ : Type) where
  GetToken : σ → User → (Option Token × Option Error) × σ
  SaveToken : σ → User → Option Token → Option Error × σ

/-- A `memStore` used through the `TokenStore` interface. -/
def memStore.toTokenStore {β : Type} (json : JSONCodec β) : TokenStore (memStore β) :=
  ⟨memStore.GetToken json, memStore.SaveToken json⟩

/-- Values of type `*http.Client`, as far as the package builds them.  Every client has
a `Timeout` field (a `time.Duration`, in nanoseconds).  A client is either plain, or
the one returned by `oauth2.NewClient(ctx, cts)`, which is recorded with the client
carried by `ctx` and with the user and the token of the token provider `cts`; that
library call leaves `Timeout` at its zero value. -/
inductive http.Client where
  | plain (Timeout : Int)
  | oauth2 (Timeout : Int) (ctxClient : Option http.Client) (user : User) (tok : Option Token)

/-- A `context.Context`, reduced to the one value the package stores in it: the client
under the key `oauth2.HTTPClient`. -/
structure Context where
  HTTPClient : Option http.Client

/-- The helper `newHTTPContext`: the context with the client added. -/
def newHTTPContext (_ctx : Context) (c : Option http.Client) : Context :=
  ⟨c⟩

/-- The method of `*oauth2.Config` that reaches the authorization server,
`Exchange(ctx, code)`, as the result it gives. -/
structure oauth2.Config where
  Exchange : Context → String → Option Token × Option Error

/-- The struct `Oauth2Authenticator`. -/
structure Oauth2Authenticator (σ : Type) where
  oauthConfig : oauth2.Config
  store : TokenStore σ
  httpCli : Option http.Client

/-- The constructor `NewOauth2Authenticator`. -/
def NewOauth2Authenticator {σ : Type} (config : oauth2.Config) (ts : TokenStore σ)
    (cli : Option http.Client) : Oauth2Authenticator σ :=
  ⟨config, ts, cli⟩

/-- A call made to a collaborator: the store's `GetToken` and `SaveToken`, and the
authorization-code exchange, each with its arguments. -/
inductive Event where
  | GetToken (user : User)
  | Exchange (code : String)
  | SaveToken (user : User) (token : Option Token)
  deriving DecidableEq, Repr

/-- The outcome of `AuthenticatedClient`: the Go result pair, the store state left
behind, and the calls made to the store and to the exchange, in order. -/
structure AuthResult (σ : Type) where
  client : Option http.Client
  err : Option Error
  state : σ
  trace : List Event

/-- The method `Oauth2Authenticator.AuthenticatedClient`. -/
def Oauth2Authenticator.AuthenticatedClient {σ : Type} (oa : Oauth2Authenticator σ)
    (ctx : Context) (user : Option User) (st : σ) : AuthResult σ :=
  match user with
  | none => ⟨none, some Error.errMissingUserID, st, []⟩
  | some user =>
    let ctx := newHTTPContext ctx oa.httpCli
    if user.AuthCode = "" then
      ⟨none, some Error.errMissingAuthCode, st, []⟩
    else if user.UserID = "" then
      ⟨none, some Error.errMissingUserID, st, []⟩
    else
      match oa.store.GetToken st user with
      | ((_, some err), st1) => ⟨none, some err, st1, [Event.GetToken user]⟩
      | ((some tok, none), st1) =>
        ⟨some (http.Client.oauth2 0 ctx.HTTPClient user (some tok)), none, st1,
          [Event.GetToken user]⟩
      | ((none, none), st1) =>
        match oa.oauthConfig.Exchange ctx user.AuthCode with
        | (_, some err) =>
          ⟨none, some err, st1, [Event.GetToken user, Event.Exchange user.AuthCode]⟩
        | (newTok, none) =>
          match oa.store.SaveToken st1 user newTok with
          | (some err, st2) =>
            ⟨none, some err, st2,
              [Event.GetToken user, Event.Exchange user.AuthCode, Event.SaveToken user newTok]⟩
          | (none, st2) =>
            ⟨some (http.Client.oauth2 0 ctx.HTTPClient user newTok), none, st2,
              [Event.GetToken user, Event.Exchange user.AuthCode, Event.SaveToken user newTok]⟩

/-- The interface `oauth2.TokenSource` over a source state `τ`: `Token()` returns its
Go result and the state of the source afterwards. -/
structure oauth2.TokenSource (τ : Type) where
  Token : τ → (Option Token × Option Error) × τ

/-- The struct `tokenProvider`. -/
structure tokenProvider (τ σ : Type) where
  user : User
  pts : oauth2.TokenSource τ
  ts : TokenStore σ

/-- The constructor `newTokenProvider`. -/
def newTokenProvider {τ σ : Type} (user : User) (src : oauth2.TokenSource τ)
    (ts : TokenStore σ) : tokenProvider τ σ :=
  ⟨user, src, ts⟩

/-- The outcome of `tokenProvider.Token`: the Go result pair, the states of the wrapped
source and of the store afterwards, and the calls made to the store. -/
structure TokenResult (τ σ : Type) where
  token : Option Token
  err : Option Error
  source : τ
  state : σ
  trace : List Event

/-- The method `tokenProvider.Token`. -/
def tokenProvider.Token {τ σ : Type} (s : tokenProvider τ σ) (src : τ) (st : σ) :
    TokenResult τ σ :=
  match s.pts.Token src with
  | ((_, some err), src1) => ⟨none, some err, src1, st, []⟩
  | ((t, none), src1) =>
    match s.ts.SaveToken st s.user t with
    | (some err, st1) => ⟨none, some err, src1, st1, [Event.SaveToken s.user t]⟩
    | (none, st1) => ⟨t, none, src1, st1, [Event.SaveToken s.user t]⟩

/-! ## noauth.go -/

/-- The struct `DefaultAuthenticator`. -/
structure DefaultAuthenticator where
  httpCli : Option http.Client

/-- The constructor `NewDefaultAuthenticator`. -/
def NewDefaultAuthenticator (cli : Option http.Client) : DefaultAuthenticator :=
  ⟨cli⟩

/-- The method `DefaultAuthenticator.AuthenticatedClient`. -/
def DefaultAuthenticator.AuthenticatedClient (da : DefaultAuthenticator) (_ctx : Context)
    (_user : Option User) : Option http.Client × Option Error :=
  (da.httpCli, none)

/-! ## service.go -/

/-- The interface `Authenticator` of auth.go over a world state `ω` (token store,
network): the Go result pair and the world left behind. -/
structure Authenticator (ω : Type) where
  AuthenticatedClient : Context → Option User → ω → (Option http.Client × Option Error) × ω

/-- A `DefaultAuthenticator` used through the `Authenticator` interface: it touches
nothing. -/
def DefaultAuthenticator.toAuthenticator {ω : Type} (da : DefaultAuthenticator) :
    Authenticator ω :=
  ⟨fun ctx user w => (da.AuthenticatedClient ctx user, w)⟩

/-- The struct `Config`: the timeout in seconds, a Go `int`. -/
structure Config where
  Timeout : Int
  deriving DecidableEq, Repr

/-- The function `DefaultConfig`. -/
def DefaultConfig : Config :=
  ⟨10⟩

/-- The struct `Client` of service.go, wrapping a `*http.Client`. -/
structure Client where
  Client : Option http.Client

/-- Two's-complement wrap-around of an integer into the range of `int64`. -/
def wrapInt64 (x : Int) : Int :=
  (x + 2 ^ 63) % 2 ^ 64 - 2 ^ 63

/-- The constant `time.Second`, in nanoseconds. -/
def time.Second : Int :=
  1000000000

/-- The assignment `client.Timeout = d`. -/
def http.Client.setTimeout : http.Client → Int → http.Client
  | .plain _, d => .plain d
  | .oauth2 _ ctxClient user tok, d => .oauth2 d ctxClient user tok

/-- The function `withTimeout`: reject a zero timeout, otherwise set the client's
timeout to `time.Second * time.Duration(config.Timeout)`, an `int64` product. -/
def withTimeout (config : Config) (client : http.Client) : Option http.Client × Option Error :=
  if config.Timeout = 0 then
    (none, some Error.errMissingTimeout)
  else
    (some (client.setTimeout (wrapInt64 (time.Second * wrapInt64 config.Timeout))), none)

/-- The function `NewClient`. -/
def NewClient (config : Config) : Option Client × Option Error :=
  match withTimeout config (http.Client.plain 0) with
  | (_, some err) => (none, some err)
  | (client, none) => (some ⟨client⟩, none)

/-- The library calls made by `Client.Do` over a world state `ω`: `ctxhttp.Do(ctx,
client, req)`, and `json.NewDecoder(res.Body).Decode(retval)` for a response type
`Res` and an output target of type `ρ`. -/
structure Transport (ω Req Res ρ : Type) where
  Do : Context → Option http.Client → Req → ω → Except Error Res × ω
  Decode : Res → ρ → ω → Option Error × ω

/-- The method `Client.Do`.  A nil `retval` and a nil `authenticator` are `none`. -/
def Client.Do {ω Req Res ρ : Type} (net : Transport ω Req Res ρ) (s : httpapi.Client)
    (ctx : Context) (req : Req) (retval : Option ρ) (user : Option User)
    (authenticator : Option (Authenticator ω)) (w : ω) : Option Error × ω :=
  let authenticator : Authenticator ω :=
    match authenticator with
    | none => (NewDefaultAuthenticator s.Client).toAuthenticator
    | some a => a
  match authenticator.AuthenticatedClient ctx user w with
  | ((_, some err), w1) => (some err, w1)
  | ((authenticatedClient, none), w1) =>
    match net.Do ctx authenticatedClient req w1 with
    | (.error err, w2) => (some err, w2)
    | (.ok res, w2) =>
      match retval with
      | none => (none, w2)
      | some rv =>
        match net.Decode res rv w2 with
        | (some err, w3) => if err.Error = "EOF" then (none, w3) else (some err, w3)
        | (none, w3) => (none, w3)

/-! ## Sequences of calls -/

/-- A sequence of `SaveToken` calls performed one after the other on a `memStore`: the
final store and, for each call, its user and the error it returned. -/
def memStore.saveAll {β : Type} (json : JSONCodec β) (s : memStore β) :
    List (User × Option Token) → memStore β × List (User × Option Error)
  | [] => (s, [])
  | (user, token) :: rest =>
    let r := memStore.SaveToken json s user token
    let rr := memStore.saveAll json r.2 rest
    (rr.1, (user, r.1) :: rr.2)

/-- The number of authorization-code exchanges in a trace. -/
def exchanges (tr : List Event) : Nat :=
  (tr.filter (fun e => match e with | Event.Exchange _ => true | _ => false)).length

/-- The number of `SaveToken` calls in a trace. -/
def saves (tr : List Event) : Nat :=
  (tr.filter (fun e => match e with | Event.SaveToken _ _ => true | _ => false)).length

/-! ## Values of service_test.go -/

/-- The user of TestClientWithOauth2: `NewOauth2User("mockID", "1234")`. -/
def mockUser : User :=
  ⟨"mockID", "1234"⟩

/-- The instant at which TestClientWithOauth2 runs (`time.Now()`), fixed to a sample
value. -/
def testNow : Int :=
  1700000000

/-- The token the test stores first; its expiry is the current instant. -/
def mockToken : Token :=
  ⟨"mock", "Bearer", "refreshmock", testNow, none⟩

/-- The token the test server issues: access token mock2, the same refresh token, an
expiry 86400 seconds later, and the scope the server sent kept among the raw fields. -/
def mockToken2 : Token :=
  ⟨"mock2", "bearer", "refreshmock", testNow + 86400, some [("scope", "user")]⟩

/-- A token source whose `Token()` yields the refreshed token of the test. -/
def refreshedSource : oauth2.TokenSource Unit :=
  ⟨fun u => ((some mockToken2, none), u)⟩

/-- A token whose expiry is 10000-01-01T00:00:00Z, as a server granting a very long
lifetime would issue. -/
def farFutureToken : Token :=
  ⟨"mock3", "bearer", "refreshmock", 253402300800, none⟩

/-- A token source whose `Token()` yields the token expiring in the year 10000. -/
def farFutureSource : oauth2.TokenSource Unit :=
  ⟨fun u => ((some farFutureToken, none), u)⟩

/-- A token source whose `Token()` fails. -/
def failedSource : oauth2.TokenSource Unit :=
  ⟨fun u => ((none, some (Error.external "oauth2: cannot fetch token")), u)⟩

/-- A token source whose `Token()` yields a nil token and a nil error. -/
def emptySource : oauth2.TokenSource Unit :=
  ⟨fun u => ((none, none), u)⟩

/-- A token store whose reads fail. -/
def unreadableStore : TokenStore Unit :=
  ⟨fun s _ => ((none, some (Error.external "store: read failed")), s),
    fun s _ _ => (none, s)⟩

/-- A token store that holds no record and whose writes fail. -/
def unwritableStore : TokenStore Unit :=
  ⟨fun s _ => ((none, none), s),
    fun s _ _ => (some (Error.external "store: write failed"), s)⟩

/-- An authorization server that issues the test server's token for every code. -/
def mockExchange : oauth2.Config :=
  ⟨fun _ _ => (some mockToken2, none)⟩

/-- An authorization server that rejects every code. -/
def rejectingExchange : oauth2.Config :=
  ⟨fun _ _ => (none, some (Error.external "oauth2: cannot fetch token"))⟩

/-- A server that answers every request successfully, as the server of
TestClientWithDefaultAuthenticator does (the response is kept as the value of its
"result" member), and a decoder that accepts the answer. -/
def testServer : Transport Unit String String Unit :=
  ⟨fun _ _ _ w => (Except.ok "success", w), fun _ _ w => (none, w)⟩

/-- A server that cannot be reached: every request fails. -/
def unreachableServer : Transport Unit String String Unit :=
  ⟨fun _ _ _ w => (Except.error (Error.external "connection refused"), w),
    fun _ _ w => (none, w)⟩

/-- Whether two `*http.Client` values are the same plain client. -/
def http.Client.samePlain : Option http.Client → Option http.Client → Bool
  | some (http.Client.plain a), some (http.Client.plain b) => decide (a = b)
  | _, _ => false

/-- A server that answers only requests sent through the given plain client and
refuses every other client. -/
def ownClientOnly (own : Option http.Client) : Transport Unit String String Unit :=
  ⟨fun _ c _ w =>
      if http.Client.samePlain c own then (Except.ok "success", w)
      else (Except.error (Error.external "forbidden"), w),
    fun _ _ w => (none, w)⟩

/-! ## The token store -/

theorem memStore.SaveToken_nil {β : Type} (json : JSONCodec β) (s : memStore β) (user : User) :
    memStore.SaveToken json s user none = (some Error.tokenCannotBeEmpty, s) :=
  rfl

theorem memStore.SaveToken_error {β : Type} (json : JSONCodec β) (s : memStore β) (user : User)
    (t : Token) (err : Error) (h : json.Marshal t = Except.error err) :
    memStore.SaveToken json s user (some t) = (some err, s) := by
  simp [memStore.SaveToken, h]

theorem memStore.SaveToken_ok {β : Type} (json : JSONCodec β) (s : memStore β) (user : User)
    (t : Token) (data : β) (h : json.Marshal t = Except.ok data) :
    memStore.SaveToken json s user (some t) =
      (none, ⟨fun k => if k = user.UserID then some data else s.store k⟩) := by
  simp [memStore.SaveToken, h]

theorem memStore.GetToken_none {β : Type} (json : JSONCodec β) (s : memStore β) (user : User)
    (h : s.store user.UserID = none) :
    memStore.GetToken json s user = ((none, none), s) := by
  simp [memStore.GetToken, h]

theorem memStore.GetToken_error {β : Type} (json : JSONCodec β) (s : memStore β) (user : User)
    (val : β) (err : Error) (h : s.store user.UserID = some val)
    (hu : json.Unmarshal val = Except.error err) :
    memStore.GetToken json s user = ((none, some err), s) := by
  simp [memStore.GetToken, h, hu]

theorem memStore.GetToken_ok {β : Type} (json : JSONCodec β) (s : memStore β) (user : User)
    (val : β) (tok : Token) (h : s.store user.UserID = some val)
    (hu : json.Unmarshal val = Except.ok tok) :
    memStore.GetToken json s user = ((some tok, none), s) := by
  simp [memStore.GetToken, h, hu]

theorem memStore.GetToken_state {β : Type} (json : JSONCodec β) (s : memStore β) (user : User) :
    (memStore.GetToken json s user).2 = s := by
  cases h : s.store user.UserID with
  | none => rw [memStore.GetToken_none json s user h]
  | some val =>
    cases hu : json.Unmarshal val with
    | error err => rw [memStore.GetToken_error json s user val err h hu]
    | ok tok => rw [memStore.GetToken_ok json s user val tok h hu]

theorem memStore.GetToken_absent_iff {β : Type} (json : JSONCodec β) (s : memStore β)
    (user : User) :
    (memStore.GetToken json s user).1 = (none, none) ↔ s.store user.UserID = none := by
  cases h : s.store user.UserID with
  | none => simp [memStore.GetToken_none json s user h]
  | some val =>
    cases hu : json.Unmarshal val with
    | error err => simp [memStore.GetToken_error json s user val err h hu]
    | ok tok => simp [memStore.GetToken_ok json s user val tok h hu]

theorem memStore.GetToken_congr {β : Type} (json : JSONCodec β) (s s2 : memStore β)
    (user : User) (h : s2.store user.UserID = s.store user.UserID) :
    (memStore.GetToken json s2 user).1 = (memStore.GetToken json s user).1 := by
  cases hs : s.store user.UserID with
  | none =>
    rw [memStore.GetToken_none json s user hs, memStore.GetToken_none json s2 user (h.trans hs)]
  | some val =>
    cases hu : json.Unmarshal val with
    | error err =>
      rw [memStore.GetToken_error json s user val err hs hu,
        memStore.GetToken_error json s2 user val err (h.trans hs) hu]
    | ok tok =>
      rw [memStore.GetToken_ok json s user val tok hs hu,
        memStore.GetToken_ok json s2 user val tok (h.trans hs) hu]

theorem memStore.SaveToken_fail_state {β : Type} (json : JSONCodec β) (s : memStore β)
    (user : User) (token : Option Token) (e : Error)
    (h : (memStore.SaveToken json s user token).1 = some e) :
    (memStore.SaveToken json s user token).2 = s := by
  cases token with
  | none => rfl
  | some t =>
    cases hm : json.Marshal t with
    | error err => rw [memStore.SaveToken_error json s user t err hm]
    | ok data => simp [memStore.SaveToken_ok json s user t data hm] at h

theorem memStore.SaveToken_other {β : Type} (json : JSONCodec β) (s : memStore β)
    (user : User) (token : Option Token) (k : String) (hk : k ≠ user.UserID) :
    (memStore.SaveToken json s user token).2.store k = s.store k := by
  cases token with
  | none => rfl
  | some t =>
    cases hm : json.Marshal t with
    | error err => rw [memStore.SaveToken_error json s user t err hm]
    | ok data => simp [memStore.SaveToken_ok json s user t data hm, hk]

theorem memStore.SaveToken_same {β : Type} (json : JSONCodec β) (s : memStore β)
    (user : User) (token : Option Token) :
    (memStore.SaveToken json s user token).2.store user.UserID = none ↔
      s.store user.UserID = none ∧ (memStore.SaveToken json s user token).1 ≠ none := by
  cases token with
  | none => simp [memStore.SaveToken_nil]
  | some t =>
    cases hm : json.Marshal t with
    | error err => simp [memStore.SaveToken_error json s user t err hm]
    | ok data => simp [memStore.SaveToken_ok json s user t data hm]

theorem memStore.saveAll_absent_iff {β : Type} (json : JSONCodec β)
    (calls : List (User × Option Token)) :
    ∀ (s : memStore β) (k : String),
      (memStore.saveAll json s calls).1.store k = none ↔
        s.store k = none ∧
          ∀ r ∈ (memStore.saveAll json s calls).2, r.1.UserID = k → r.2 ≠ none := by
  induction calls with
  | nil => intro s k; simp [memStore.saveAll]
  | cons c rest ih =>
    intro s k
    obtain ⟨user, token⟩ := c
    simp only [memStore.saveAll, List.mem_cons, forall_eq_or_imp]
    rw [ih]
    by_cases hk : k = user.UserID
    · subst hk
      rw [memStore.SaveToken_same]
      constructor
      · rintro ⟨⟨h1, h2⟩, h3⟩
        exact ⟨h1, fun _ => h2, h3⟩
      · rintro ⟨h1, h2, h3⟩
        exact ⟨⟨h1, h2 rfl⟩, h3⟩
    · rw [memStore.SaveToken_other json s user token k hk]
      constructor
      · rintro ⟨h1, h3⟩
        exact ⟨h1, fun h => absurd h.symm hk, h3⟩
      · rintro ⟨h1, _, h3⟩
        exact ⟨h1, h3⟩

/-- C8 (save rejection): on every memStore state and for every user, `SaveToken(user,
nil)` returns an error and leaves the store as it was, so `GetToken` answers for every
user exactly as before the call. -/
theorem memStore_SaveToken_nil_rejected {β : Type} (json : JSONCodec β) (s : memStore β)
    (user : User) :
    (memStore.SaveToken json s user none).1 = some Error.tokenCannotBeEmpty ∧
      (memStore.SaveToken json s user none).2 = s ∧
      ∀ u : User,
        memStore.GetToken json (memStore.SaveToken json s user none).2 u =
          memStore.GetToken json s u :=
  ⟨rfl, rfl, fun _ => rfl⟩

/-- C7 (store keyed by UserID): after any sequence of `SaveToken` calls on a fresh
memStore, `GetToken(user)` gives the absent result `(nil, nil)` exactly when no call
under `user.UserID()` succeeded; a `SaveToken` under another UserID does not change
what `GetToken(user)` returns; and two users with one UserID read and write the same
record. -/
theorem memStore_keyed_by_UserID {β : Type} (json : JSONCodec β) :
    (∀ (calls : List (User × Option Token)) (user : User),
        (memStore.GetToken json (memStore.saveAll json NewMemStore calls).1 user).1 =
            (none, none) ↔
          ∀ r ∈ (memStore.saveAll json NewMemStore calls).2,
            r.1.UserID = user.UserID → r.2 ≠ none) ∧
      (∀ (s : memStore β) (user other : User) (token : Option Token),
        other.UserID ≠ user.UserID →
          (memStore.GetToken json (memStore.SaveToken json s other token).2 user).1 =
            (memStore.GetToken json s user).1) ∧
      ∀ (s : memStore β) (u v : User) (token : Option Token),
        u.UserID = v.UserID →
          memStore.GetToken json s u = memStore.GetToken json s v ∧
            memStore.SaveToken json s u token = memStore.SaveToken json s v token := by
  refine ⟨?_, ?_, ?_⟩
  · intro calls user
    rw [memStore.GetToken_absent_iff, memStore.saveAll_absent_iff]
    simp [NewMemStore]
  · intro s user other token hne
    apply memStore.GetToken_congr
    exact memStore.SaveToken_other json s other token user.UserID (fun h => hne h.symm)
  · intro s u v token h
    unfold memStore.GetToken memStore.SaveToken
    rw [h]
    exact ⟨rfl, rfl⟩

/-- Witness of C7: two saves on a fresh store, one under "other" and a rejected nil
save under "mockID", leave "mockID" absent; and users ("mockID", "1234") and
("mockID", "9999") address one record. -/
theorem memStore_keyed_by_UserID_witness :
    (memStore.GetToken encodingJSON
        (memStore.saveAll encodingJSON NewMemStore
          [((⟨"other", "1"⟩ : User), some mockToken), (mockUser, none)]).1 mockUser).1 =
        (none, none) ∧
      ("other" ≠ mockUser.UserID ∧
        (memStore.GetToken encodingJSON
            (memStore.SaveToken encodingJSON NewMemStore ⟨"other", "1"⟩ (some mockToken)).2
            mockUser).1 =
          (memStore.GetToken encodingJSON NewMemStore mockUser).1) ∧
      (mockUser.UserID = (⟨"mockID", "9999"⟩ : User).UserID ∧
        memStore.GetToken encodingJSON NewMemStore mockUser =
          memStore.GetToken encodingJSON NewMemStore ⟨"mockID", "9999"⟩) :=
  ⟨((memStore_keyed_by_UserID encodingJSON).1 _ mockUser).2 (by
      intro r hr
      simp [memStore.saveAll, memStore.SaveToken, encodingJSON, mockUser] at hr
      rcases hr with rfl | rfl
      · simp [mockUser]
      · simp),
    ⟨by decide,
      (memStore_keyed_by_UserID encodingJSON).2.1 NewMemStore mockUser ⟨"other", "1"⟩
        (some mockToken) (by decide)⟩,
    ⟨rfl,
      ((memStore_keyed_by_UserID encodingJSON).2.2 NewMemStore mockUser ⟨"mockID", "9999"⟩
        none rfl).1⟩⟩

/-- C6, as stated, fails: the test server's token carries raw fields, and the record
`GetToken` returns after `SaveToken` is not equal to it; and for the token that expires
in the year 10000 `SaveToken` does not succeed, it returns the encoder's error. -/
theorem memStore_roundtrip_not_lossless :
    (memStore.GetToken encodingJSON
          (memStore.SaveToken encodingJSON NewMemStore mockUser (some mockToken2)).2
          mockUser).1 ≠ (some mockToken2, none) ∧
      (memStore.SaveToken encodingJSON NewMemStore mockUser (some farFutureToken)).1 =
        some (Error.external "Time.MarshalJSON: year outside of range [0,9999]") := by
  decide

/-- C6 (store round trip, amended): on every memStore state, for every user and every
non-nil token `t`: if `json.Marshal(t)` fails, `SaveToken(user, t)` returns that error
and leaves the store as it was; if it yields `data`, `SaveToken` succeeds, the entry of
the user is `data` whatever was stored before, and the following `GetToken(user)`
returns exactly what `json.Unmarshal` makes of `data`: the decoded record and no error,
or the decoding error and no record. -/
theorem memStore_save_then_get {β : Type} (json : JSONCodec β) (s : memStore β) (user : User)
    (t : Token) :
    (∀ e : Error, json.Marshal t = Except.error e →
        memStore.SaveToken json s user (some t) = (some e, s)) ∧
      ∀ data : β, json.Marshal t = Except.ok data →
        (memStore.SaveToken json s user (some t)).1 = none ∧
          (memStore.SaveToken json s user (some t)).2.store user.UserID = some data ∧
          (∀ tok : Token, json.Unmarshal data = Except.ok tok →
            (memStore.GetToken json (memStore.SaveToken json s user (some t)).2 user).1 =
              (some tok, none)) ∧
          ∀ e : Error, json.Unmarshal data = Except.error e →
            (memStore.GetToken json (memStore.SaveToken json s user (some t)).2 user).1 =
              (none, some e) := by
  refine ⟨fun e he => memStore.SaveToken_error json s user t e he, ?_⟩
  intro data hm
  have hstore : (memStore.SaveToken json s user (some t)).2.store user.UserID = some data := by
    rw [memStore.SaveToken_ok json s user t data hm]
    simp
  refine ⟨?_, hstore, ?_, ?_⟩
  · rw [memStore.SaveToken_ok json s user t data hm]
  · intro tok hu
    rw [memStore.GetToken_ok json _ user data tok hstore hu]
  · intro e hu
    rw [memStore.GetToken_error json _ user data e hstore hu]

/-- Witness of C6: the token "mock" of the test, saved over a store that already holds
the token "mock2" for the user; it has no raw fields and comes back as it was saved. -/
theorem memStore_save_then_get_witness :
    (memStore.GetToken encodingJSON
        (memStore.SaveToken encodingJSON
          (memStore.SaveToken encodingJSON NewMemStore mockUser (some mockToken2)).2 mockUser
          (some mockToken)).2 mockUser).1 = (some mockToken, none) :=
  ((memStore_save_then_get encodingJSON
      (memStore.SaveToken encodingJSON NewMemStore mockUser (some mockToken2)).2 mockUser
      mockToken).2 ⟨"mock", "Bearer", "refreshmock", testNow⟩ rfl).2.2.1 mockToken rfl

/-! ## The refresh interceptor -/

/-- C2, as stated, fails: over a memStore holding the token "mock", a source whose
`Token()` succeeds with the token that expires in the year 10000 makes
`tokenProvider.Token()` return the encoder's error and no token, and `GetToken` still
returns the record "mock". -/
theorem tokenProvider_Token_unencodable :
    ((newTokenProvider mockUser farFutureSource (memStore.toTokenStore encodingJSON)).Token ()
          (memStore.SaveToken encodingJSON NewMemStore mockUser (some mockToken)).2).token =
        none ∧
      ((newTokenProvider mockUser farFutureSource (memStore.toTokenStore encodingJSON)).Token
            ()
            (memStore.SaveToken encodingJSON NewMemStore mockUser (some mockToken)).2).err =
        some (Error.external "Time.MarshalJSON: year outside of range [0,9999]") ∧
      (memStore.GetToken encodingJSON
          ((newTokenProvider mockUser farFutureSource
              (memStore.toTokenStore encodingJSON)).Token ()
            (memStore.SaveToken encodingJSON NewMemStore mockUser (some mockToken)).2).state
          mockUser).1 = (some mockToken, none) := by
  decide

/-- C2 (refresh persistence, amended): for every user, every memStore state and every
wrapped source whose `Token()` succeeds with a token `t`: if `json.Marshal(t)` yields
`data`, `tokenProvider.Token()` returns `t` without error after one
`SaveToken(user, t)`, the entry of the user becomes `data` whatever record was stored
before, and `GetToken(user)` then returns the record `json.Unmarshal` decodes from
`data`; if `json.Marshal(t)` fails with `e`, `tokenProvider.Token()` returns `e` and no
token and the store is unchanged. -/
theorem tokenProvider_Token_persists {τ β : Type} (json : JSONCodec β) (user : User)
    (pts : oauth2.TokenSource τ) (src src1 : τ) (s : memStore β) (t : Token)
    (h : pts.Token src = ((some t, none), src1)) :
    (∀ data : β, json.Marshal t = Except.ok data →
        ((newTokenProvider user pts (memStore.toTokenStore json)).Token src s).token =
            some t ∧
          ((newTokenProvider user pts (memStore.toTokenStore json)).Token src s).err = none ∧
          ((newTokenProvider user pts (memStore.toTokenStore json)).Token src s).trace =
            [Event.SaveToken user (some t)] ∧
          ((newTokenProvider user pts (memStore.toTokenStore json)).Token src
              s).state.store user.UserID = some data ∧
          ∀ tok : Token, json.Unmarshal data = Except.ok tok →
            (memStore.GetToken json
                ((newTokenProvider user pts (memStore.toTokenStore json)).Token src s).state
                user).1 = (some tok, none)) ∧
      ∀ e : Error, json.Marshal t = Except.error e →
        ((newTokenProvider user pts (memStore.toTokenStore json)).Token src s).token = none ∧
          ((newTokenProvider user pts (memStore.toTokenStore json)).Token src s).err =
            some e ∧
          ((newTokenProvider user pts (memStore.toTokenStore json)).Token src s).state = s := by
  refine ⟨?_, ?_⟩
  · intro data hm
    have hsave := memStore.SaveToken_ok json s user t data hm
    have hstate :
        ((newTokenProvider user pts (memStore.toTokenStore json)).Token src s).state =
          ⟨fun k => if k = user.UserID then some data else s.store k⟩ := by
      simp [tokenProvider.Token, newTokenProvider, memStore.toTokenStore, h, hsave]
    have hstore :
        ((newTokenProvider user pts (memStore.toTokenStore json)).Token src
            s).state.store user.UserID = some data := by
      rw [hstate]
      simp
    refine ⟨?_, ?_, ?_, hstore, ?_⟩
    · simp [tokenProvider.Token, newTokenProvider, memStore.toTokenStore, h, hsave]
    · simp [tokenProvider.Token, newTokenProvider, memStore.toTokenStore, h, hsave]
    · simp [tokenProvider.Token, newTokenProvider, memStore.toTokenStore, h, hsave]
    · intro tok hu
      rw [memStore.GetToken_ok json _ user data tok hstore hu]
  · intro e hm
    have hsave := memStore.SaveToken_error json s user t e hm
    simp [tokenProvider.Token, newTokenProvider, memStore.toTokenStore, h, hsave]

/-- Witness of C2, the scenario of TestClientWithOauth2: the store holds the token
"mock" expiring now, the source issues "mock2"; afterwards `GetToken` yields a record
with access token "mock2", refresh token "refreshmock" and an expiry after now. -/
theorem tokenProvider_Token_persists_witness :
    refreshedSource.Token () = ((some mockToken2, none), ()) ∧
      ∃ tok : Token,
        (memStore.GetToken encodingJSON
            ((newTokenProvider mockUser refreshedSource
                (memStore.toTokenStore encodingJSON)).Token ()
              (memStore.SaveToken encodingJSON NewMemStore mockUser (some mockToken)).2).state
            mockUser).1 = (some tok, none) ∧
          tok.AccessToken = "mock2" ∧ tok.RefreshToken = mockToken.RefreshToken ∧
            testNow < tok.Expiry :=
  ⟨rfl, ⟨"mock2", "bearer", "refreshmock", testNow + 86400, none⟩,
    ((tokenProvider_Token_persists encodingJSON mockUser refreshedSource () ()
        (memStore.SaveToken encodingJSON NewMemStore mockUser (some mockToken)).2 mockToken2
        rfl).1 ⟨"mock2", "bearer", "refreshmock", testNow + 86400⟩ rfl).2.2.2.2
      ⟨"mock2", "bearer", "refreshmock", testNow + 86400, none⟩ rfl,
    rfl, rfl, by decide⟩

/-- C4 (interceptor fail-fast): if the wrapped source's `Token()` fails with `e`,
`tokenProvider.Token()` returns `e` and no token, calls `SaveToken` zero times and
leaves the store as it was; if the source succeeds with `t` and `SaveToken(user, t)`
fails with `e`, it returns `e` and no token; and over a memStore the store is then
unchanged, so `GetToken` returns for every user what it returned before. -/
theorem tokenProvider_Token_fail_fast :
    (∀ {τ σ : Type} (s : tokenProvider τ σ) (src src1 : τ) (st : σ) (t : Option Token)
        (e : Error),
        s.pts.Token src = ((t, some e), src1) →
          (s.Token src st).token = none ∧ (s.Token src st).err = some e ∧
            (s.Token src st).trace = [] ∧ (s.Token src st).state = st) ∧
      (∀ {τ σ : Type} (s : tokenProvider τ σ) (src src1 : τ) (st st1 : σ) (t : Option Token)
        (e : Error),
        s.pts.Token src = ((t, none), src1) → s.ts.SaveToken st s.user t = (some e, st1) →
          (s.Token src st).token = none ∧ (s.Token src st).err = some e ∧
            (s.Token src st).trace = [Event.SaveToken s.user t]) ∧
      ∀ {τ β : Type} (json : JSONCodec β) (user : User) (pts : oauth2.TokenSource τ)
        (src src1 : τ) (ms : memStore β) (t : Option Token) (e : Error),
        pts.Token src = ((t, none), src1) → (memStore.SaveToken json ms user t).1 = some e →
          ((newTokenProvider user pts (memStore.toTokenStore json)).Token src ms).token =
              none ∧
            ((newTokenProvider user pts (memStore.toTokenStore json)).Token src ms).err =
              some e ∧
            ((newTokenProvider user pts (memStore.toTokenStore json)).Token src ms).state =
              ms ∧
            ∀ u : User,
              memStore.GetToken json
                  ((newTokenProvider user pts (memStore.toTokenStore json)).Token src
                    ms).state u =
                memStore.GetToken json ms u := by
  refine ⟨?_, ?_, ?_⟩
  · intro τ σ s src src1 st t e h
    simp [tokenProvider.Token, h]
  · intro τ σ s src src1 st st1 t e h hs
    simp [tokenProvider.Token, h, hs]
  · intro τ β json user pts src src1 ms t e h hs
    have hst := memStore.SaveToken_fail_state json ms user t e hs
    have hpair : memStore.SaveToken json ms user t = (some e, ms) := Prod.ext hs hst
    have hstate :
        ((newTokenProvider user pts (memStore.toTokenStore json)).Token src ms).state = ms := by
      simp [tokenProvider.Token, newTokenProvider, memStore.toTokenStore, h, hpair]
    refine ⟨?_, ?_, hstate, ?_⟩
    · simp [tokenProvider.Token, newTokenProvider, memStore.toTokenStore, h, hpair]
    · simp [tokenProvider.Token, newTokenProvider, memStore.toTokenStore, h, hpair]
    · intro u
      rw [hstate]

/-- Witness of C4: a failing source over an unwritable store; a succeeding source over
an unwritable store; and, over a memStore holding the token "mock", a source that
yields a nil token, which `SaveToken` rejects. -/
theorem tokenProvider_Token_fail_fast_witness :
    ((newTokenProvider mockUser failedSource unwritableStore).Token () ()).err =
        some (Error.external "oauth2: cannot fetch token") ∧
      ((newTokenProvider mockUser refreshedSource unwritableStore).Token () ()).err =
        some (Error.external "store: write failed") ∧
      ((newTokenProvider mockUser emptySource (memStore.toTokenStore encodingJSON)).Token ()
          (memStore.SaveToken encodingJSON NewMemStore mockUser (some mockToken)).2).err =
        some Error.tokenCannotBeEmpty :=
  ⟨(tokenProvider_Token_fail_fast.1 (newTokenProvider mockUser failedSource unwritableStore)
      () () () none (Error.external "oauth2: cannot fetch token") rfl).2.1,
    (tokenProvider_Token_fail_fast.2.1
      (newTokenProvider mockUser refreshedSource unwritableStore) () () () ()
      (some mockToken2) (Error.external "store: write failed") rfl rfl).2.1,
    (tokenProvider_Token_fail_fast.2.2 encodingJSON mockUser emptySource () ()
      (memStore.SaveToken encodingJSON NewMemStore mockUser (some mockToken)).2 none
      Error.tokenCannotBeEmpty rfl rfl).2.1⟩

/-! ## The OAuth2 authenticator -/

/-- C3 (missing-identity rejection): `AuthenticatedClient` returns errMissingUserID and
no client for a nil user, errMissingAuthCode and no client when the AuthCode is empty
(whatever the UserID is), and errMissingUserID and no client when the AuthCode is
non-empty and the UserID is empty; in each case it makes no call to the store or to the
exchange and the store is unchanged. -/
theorem AuthenticatedClient_missing_identity {σ : Type} (oa : Oauth2Authenticator σ)
    (ctx : Context) (st : σ) :
    oa.AuthenticatedClient ctx none st = ⟨none, some Error.errMissingUserID, st, []⟩ ∧
      (∀ user : User, user.AuthCode = "" →
        oa.AuthenticatedClient ctx (some user) st =
          ⟨none, some Error.errMissingAuthCode, st, []⟩) ∧
      ∀ user : User, user.AuthCode ≠ "" → user.UserID = "" →
        oa.AuthenticatedClient ctx (some user) st =
          ⟨none, some Error.errMissingUserID, st, []⟩ := by
  refine ⟨rfl, ?_, ?_⟩
  · intro user h
    simp [Oauth2Authenticator.AuthenticatedClient, h]
  · intro user h1 h2
    simp [Oauth2Authenticator.AuthenticatedClient, h1, h2]

/-- Witness of C3: users with both fields empty, and with only the UserID empty. -/
theorem AuthenticatedClient_missing_identity_witness :
    ((NewOauth2Authenticator mockExchange (memStore.toTokenStore encodingJSON)
          none).AuthenticatedClient ⟨none⟩ (some ⟨"", ""⟩) NewMemStore).err =
        some Error.errMissingAuthCode ∧
      ((NewOauth2Authenticator mockExchange (memStore.toTokenStore encodingJSON)
          none).AuthenticatedClient ⟨none⟩ (some ⟨"", "1234"⟩) NewMemStore).err =
        some Error.errMissingUserID :=
  ⟨congrArg AuthResult.err
      ((AuthenticatedClient_missing_identity
        (NewOauth2Authenticator mockExchange (memStore.toTokenStore encodingJSON) none) ⟨none⟩
        NewMemStore).2.1 ⟨"", ""⟩ rfl),
    congrArg AuthResult.err
      ((AuthenticatedClient_missing_identity
        (NewOauth2Authenticator mockExchange (memStore.toTokenStore encodingJSON) none) ⟨none⟩
        NewMemStore).2.2 ⟨"", "1234"⟩ (by decide) rfl)⟩

/-- C5 (authenticator fail-fast): for a user with non-empty UserID and AuthCode, if
`store.GetToken` fails with `e` the call returns `e` and no client after that single
call; if `GetToken` reports absent and the exchange fails with `e` it returns `e` and
no client without saving; if the exchange succeeds and `store.SaveToken` fails with `e`
it returns `e` and no client. -/
theorem AuthenticatedClient_fail_fast {σ : Type} (oa : Oauth2Authenticator σ) (ctx : Context)
    (user : User) (st : σ) (hid : user.UserID ≠ "") (hcode : user.AuthCode ≠ "") :
    (∀ (tok : Option Token) (e : Error) (st1 : σ),
        oa.store.GetToken st user = ((tok, some e), st1) →
          oa.AuthenticatedClient ctx (some user) st =
            ⟨none, some e, st1, [Event.GetToken user]⟩) ∧
      (∀ (tok : Option Token) (e : Error) (st1 : σ),
        oa.store.GetToken st user = ((none, none), st1) →
          oa.oauthConfig.Exchange (newHTTPContext ctx oa.httpCli) user.AuthCode =
              (tok, some e) →
            oa.AuthenticatedClient ctx (some user) st =
              ⟨none, some e, st1, [Event.GetToken user, Event.Exchange user.AuthCode]⟩) ∧
      ∀ (newTok : Option Token) (e : Error) (st1 st2 : σ),
        oa.store.GetToken st user = ((none, none), st1) →
          oa.oauthConfig.Exchange (newHTTPContext ctx oa.httpCli) user.AuthCode =
              (newTok, none) →
            oa.store.SaveToken st1 user newTok = (some e, st2) →
              oa.AuthenticatedClient ctx (some user) st =
                ⟨none, some e, st2,
                  [Event.GetToken user, Event.Exchange user.AuthCode,
                    Event.SaveToken user newTok]⟩ := by
  refine ⟨?_, ?_, ?_⟩
  · intro tok e st1 h
    simp [Oauth2Authenticator.AuthenticatedClient, hid, hcode, h]
  · intro tok e st1 h hx
    simp [Oauth2Authenticator.AuthenticatedClient, hid, hcode, h, hx]
  · intro newTok e st1 st2 h hx hs
    simp [Oauth2Authenticator.AuthenticatedClient, hid, hcode, h, hx, hs]

/-- Witness of C5: an unreadable store; a store without record and a rejecting
authorization server; an unwritable store and a server that issues a token. -/
theorem AuthenticatedClient_fail_fast_witness :
    (mockUser.UserID ≠ "" ∧ mockUser.AuthCode ≠ "") ∧
      (NewOauth2Authenticator mockExchange unreadableStore none).AuthenticatedClient ⟨none⟩
          (some mockUser) () =
        ⟨none, some (Error.external "store: read failed"), (), [Event.GetToken mockUser]⟩ ∧
      (NewOauth2Authenticator rejectingExchange unwritableStore none).AuthenticatedClient
          ⟨none⟩ (some mockUser) () =
        ⟨none, some (Error.external "oauth2: cannot fetch token"), (),
          [Event.GetToken mockUser, Event.Exchange mockUser.AuthCode]⟩ ∧
      (NewOauth2Authenticator mockExchange unwritableStore none).AuthenticatedClient ⟨none⟩
          (some mockUser) () =
        ⟨none, some (Error.external "store: write failed"), (),
          [Event.GetToken mockUser, Event.Exchange mockUser.AuthCode,
            Event.SaveToken mockUser (some mockToken2)]⟩ :=
  ⟨⟨by decide, by decide⟩,
    (AuthenticatedClient_fail_fast (NewOauth2Authenticator mockExchange unreadableStore none)
      ⟨none⟩ mockUser () (by decide) (by decide)).1 none _ () rfl,
    (AuthenticatedClient_fail_fast
      (NewOauth2Authenticator rejectingExchange unwritableStore none) ⟨none⟩ mockUser ()
      (by decide) (by decide)).2.1 none _ () rfl rfl,
    (AuthenticatedClient_fail_fast (NewOauth2Authenticator mockExchange unwritableStore none)
      ⟨none⟩ mockUser () (by decide) (by decide)).2.2 (some mockToken2) _ () () rfl rfl rfl⟩

theorem newHTTPContext_HTTPClient (ctx : Context) (c : Option http.Client) :
    (newHTTPContext ctx c).HTTPClient = c :=
  rfl

theorem AuthenticatedClient_exchanges_eq {σ : Type} (oa : Oauth2Authenticator σ)
    (ctx : Context) (user : User) (st : σ) (hid : user.UserID ≠ "")
    (hcode : user.AuthCode ≠ "") :
    exchanges (oa.AuthenticatedClient ctx (some user) st).trace =
      if (oa.store.GetToken st user).1 = (none, none) then 1 else 0 := by
  rcases hg : oa.store.GetToken st user with ⟨⟨tok, err⟩, st1⟩
  cases err with
  | some e => simp [Oauth2Authenticator.AuthenticatedClient, hid, hcode, hg, exchanges]
  | none =>
    cases tok with
    | some t => simp [Oauth2Authenticator.AuthenticatedClient, hid, hcode, hg, exchanges]
    | none =>
      rcases hx : oa.oauthConfig.Exchange (newHTTPContext ctx oa.httpCli) user.AuthCode with
        ⟨newTok, xerr⟩
      cases xerr with
      | some e => simp [Oauth2Authenticator.AuthenticatedClient, hid, hcode, hg, hx, exchanges]
      | none =>
        rcases hs : oa.store.SaveToken st1 user newTok with ⟨serr, st2⟩
        cases serr <;>
          simp [Oauth2Authenticator.AuthenticatedClient, hid, hcode, hg, hx, hs, exchanges]

/-- C1 (code-exchange-once): for a user with non-empty UserID and AuthCode, a call of
`AuthenticatedClient` performs one authorization-code exchange when `store.GetToken`
reports no record and none otherwise.  Over a memStore without a record for the user
and an exchange that succeeds with a token `t` the encoder accepts, the first call
performs `GetToken`, one exchange and one `SaveToken(user, t)`, after which the record
is present; a second call for the same user (whatever the authorization server would
answer) performs `GetToken` only: zero exchanges and zero saves. -/
theorem AuthenticatedClient_exchange_once :
    (∀ {σ : Type} (oa : Oauth2Authenticator σ) (ctx : Context) (user : User) (st : σ),
        user.UserID ≠ "" → user.AuthCode ≠ "" →
          (exchanges (oa.AuthenticatedClient ctx (some user) st).trace = 1 ↔
              (oa.store.GetToken st user).1 = (none, none)) ∧
            exchanges (oa.AuthenticatedClient ctx (some user) st).trace ≤ 1) ∧
      ∀ {β : Type} (json : JSONCodec β) (config config2 : oauth2.Config)
        (cli cli2 : Option http.Client) (ctx ctx2 : Context) (user : User) (s : memStore β)
        (t : Token) (data : β) (r1 r2 : AuthResult (memStore β)),
        user.UserID ≠ "" → user.AuthCode ≠ "" → s.store user.UserID = none →
          config.Exchange (newHTTPContext ctx cli) user.AuthCode = (some t, none) →
            json.Marshal t = Except.ok data →
              r1 = (NewOauth2Authenticator config (memStore.toTokenStore json)
                      cli).AuthenticatedClient ctx (some user) s →
                r2 = (NewOauth2Authenticator config2 (memStore.toTokenStore json)
                        cli2).AuthenticatedClient ctx2 (some user) r1.state →
                  (r1.trace =
                      [Event.GetToken user, Event.Exchange user.AuthCode,
                        Event.SaveToken user (some t)] ∧
                    exchanges r1.trace = 1 ∧ saves r1.trace = 1 ∧ r1.err = none ∧
                    r1.state.store user.UserID = some data) ∧
                  r2.trace = [Event.GetToken user] ∧ exchanges r2.trace = 0 ∧
                    saves r2.trace = 0 := by
  refine ⟨?_, ?_⟩
  · intro σ oa ctx user st hid hcode
    rw [AuthenticatedClient_exchanges_eq oa ctx user st hid hcode]
    by_cases h : (oa.store.GetToken st user).1 = (none, none) <;> simp [h]
  · intro β json config config2 cli cli2 ctx ctx2 user s t data r1 r2 hid hcode hs hx hm h1 h2
    have hget := memStore.GetToken_none json s user hs
    have hsave := memStore.SaveToken_ok json s user t data hm
    have e1 : r1 = ⟨some (http.Client.oauth2 0 cli user (some t)), none,
        ⟨fun k => if k = user.UserID then some data else s.store k⟩,
        [Event.GetToken user, Event.Exchange user.AuthCode,
          Event.SaveToken user (some t)]⟩ := by
      rw [h1]
      simp [Oauth2Authenticator.AuthenticatedClient, NewOauth2Authenticator,
        memStore.toTokenStore, hid, hcode, hget, hx, hsave, newHTTPContext_HTTPClient]
    have hst : r1.state.store user.UserID = some data := by
      rw [e1]; simp
    refine ⟨⟨?_, ?_, ?_, ?_, hst⟩, ?_⟩
    · rw [e1]
    · rw [e1]; simp [exchanges]
    · rw [e1]; simp [saves]
    · rw [e1]
    · have e2 : r2.trace = [Event.GetToken user] := by
        rw [h2]
        cases hu : json.Unmarshal data with
        | error err =>
          simp [Oauth2Authenticator.AuthenticatedClient, NewOauth2Authenticator,
            memStore.toTokenStore, hid, hcode,
            memStore.GetToken_error json r1.state user data err hst hu]
        | ok tok =>
          simp [Oauth2Authenticator.AuthenticatedClient, NewOauth2Authenticator,
            memStore.toTokenStore, hid, hcode,
            memStore.GetToken_ok json r1.state user data tok hst hu]
      refine ⟨e2, ?_, ?_⟩
      · rw [e2]; simp [exchanges]
      · rw [e2]; simp [saves]

/-- Witness of C1: a fresh memStore, the test user and a server issuing the token
"mock2"; the second call is made against a server that would reject the code. -/
theorem AuthenticatedClient_exchange_once_witness :
    (mockUser.UserID ≠ "" ∧ mockUser.AuthCode ≠ "" ∧
        (NewMemStore : memStore TokenJSON).store mockUser.UserID = none) ∧
      exchanges
          ((NewOauth2Authenticator mockExchange (memStore.toTokenStore encodingJSON)
            none).AuthenticatedClient ⟨none⟩ (some mockUser) NewMemStore).trace = 1 ∧
      saves
          ((NewOauth2Authenticator mockExchange (memStore.toTokenStore encodingJSON)
            none).AuthenticatedClient ⟨none⟩ (some mockUser) NewMemStore).trace = 1 ∧
      exchanges
          ((NewOauth2Authenticator rejectingExchange (memStore.toTokenStore encodingJSON)
            none).AuthenticatedClient ⟨none⟩ (some mockUser)
              ((NewOauth2Authenticator mockExchange (memStore.toTokenStore encodingJSON)
                none).AuthenticatedClient ⟨none⟩ (some mockUser) NewMemStore).state).trace =
        0 ∧
      saves
          ((NewOauth2Authenticator rejectingExchange (memStore.toTokenStore encodingJSON)
            none).AuthenticatedClient ⟨none⟩ (some mockUser)
              ((NewOauth2Authenticator mockExchange (memStore.toTokenStore encodingJSON)
                none).AuthenticatedClient ⟨none⟩ (some mockUser) NewMemStore).state).trace =
        0 :=
  have h :=
    AuthenticatedClient_exchange_once.2 encodingJSON mockExchange rejectingExchange none none
      ⟨none⟩ ⟨none⟩ mockUser NewMemStore mockToken2
      ⟨"mock2", "bearer", "refreshmock", testNow + 86400⟩ _ _ (by decide) (by decide) rfl rfl
      rfl rfl rfl
  ⟨⟨by decide, by decide, rfl⟩, h.1.2.1, h.1.2.2.1, h.2.2.1, h.2.2.2⟩

/-! ## The request executor -/

theorem wrapInt64_eq (x : Int) (h1 : -9223372036854775808 ≤ x) (h2 : x < 9223372036854775808) :
    wrapInt64 x = x := by
  unfold wrapInt64
  norm_num
  omega

/-- C9, as stated, fails: for Timeout -1, which is not greater than 0, `NewClient`
returns a client (with a negative timeout) and no error; and for Timeout 9223372037 the
client's timeout is a negative duration, not 9223372037 seconds. -/
theorem NewClient_accepts_negative_timeout :
    NewClient ⟨-1⟩ = (some ⟨some (http.Client.plain (-1000000000))⟩, none) ∧
      NewClient ⟨9223372037⟩ =
        (some ⟨some (http.Client.plain (-9223372036709551616))⟩, none) := by
  constructor <;> rfl

/-- C9 (construction validation, amended): `NewClient(config)` returns the
missing-timeout error and no client exactly when `config.Timeout` is 0; for every
other Timeout it returns a client and no error; and for `0 < Timeout ≤ 9223372036` the
client's timeout is exactly Timeout seconds, a positive duration. -/
theorem NewClient_timeout (config : Config) :
    (config.Timeout = 0 → NewClient config = (none, some Error.errMissingTimeout)) ∧
      (config.Timeout ≠ 0 → ∃ c : Client, NewClient config = (some c, none)) ∧
      (0 < config.Timeout → config.Timeout ≤ 9223372036 →
        NewClient config =
            (some ⟨some (http.Client.plain (config.Timeout * time.Second))⟩, none) ∧
          0 < config.Timeout * time.Second) := by
  refine ⟨?_, ?_, ?_⟩
  · intro h
    simp [NewClient, withTimeout, h]
  · intro h
    simp [NewClient, withTimeout, h]
  · intro h1 h2
    have hne : config.Timeout ≠ 0 := by omega
    have hw : wrapInt64 config.Timeout = config.Timeout := wrapInt64_eq _ (by omega) (by omega)
    have hw2 : wrapInt64 (time.Second * config.Timeout) = config.Timeout * time.Second := by
      rw [wrapInt64_eq _ (by unfold time.Second; omega) (by unfold time.Second; omega)]
      exact Int.mul_comm _ _
    refine ⟨?_, ?_⟩
    · simp [NewClient, withTimeout, hne, hw, hw2, http.Client.setTimeout]
    · unfold time.Second
      omega

/-- Witness of C9: the test configuration, Timeout 10, gives a client whose timeout
is ten seconds; Timeout 0 gives the error. -/
theorem NewClient_timeout_witness :
    ((0 : Int) < 10 ∧ (10 : Int) ≤ 9223372036) ∧
      NewClient ⟨10⟩ = (some ⟨some (http.Client.plain (10 * time.Second))⟩, none) ∧
      NewClient ⟨0⟩ = (none, some Error.errMissingTimeout) :=
  ⟨⟨by decide, by decide⟩, ((NewClient_timeout ⟨10⟩).2.2 (by decide) (by decide)).1,
    (NewClient_timeout ⟨0⟩).1 rfl⟩

/-- C10 (no-auth pass-through): for every bound client, context and user (nil
included) `DefaultAuthenticator.AuthenticatedClient` returns the bound client and no
error.  `Client.Do` with a nil authenticator gives the same result and leaves the same
world as `Client.Do` with `NewDefaultAuthenticator(s.Client)`, and as `Client.Do` with
any authenticator that hands out `s.Client` without error and without effect.  Its
result is that of the one request `ctxhttp.Do(ctx, s.Client, req)` made in the world
it was called in: the request's error when it fails; nil when it succeeds and `retval`
is nil; otherwise the decoder's error, with the error whose message is "EOF" turned
into nil. -/
theorem Client_Do_nil_authenticator :
    (∀ (c : Option http.Client) (ctx : Context) (user : Option User),
        (NewDefaultAuthenticator c).AuthenticatedClient ctx user = (c, none)) ∧
      (∀ {ω Req Res ρ : Type} (net : Transport ω Req Res ρ) (s : Client) (ctx : Context)
        (req : Req) (retval : Option ρ) (user : Option User) (w : ω),
        Client.Do net s ctx req retval user none w =
          Client.Do net s ctx req retval user
            (some (NewDefaultAuthenticator s.Client).toAuthenticator) w) ∧
      (∀ {ω Req Res ρ : Type} (net : Transport ω Req Res ρ) (s : Client) (ctx : Context)
        (req : Req) (retval : Option ρ) (user : Option User) (w : ω) (a : Authenticator ω),
        a.AuthenticatedClient ctx user w = ((s.Client, none), w) →
          Client.Do net s ctx req retval user none w =
            Client.Do net s ctx req retval user (some a) w) ∧
      ∀ {ω Req Res ρ : Type} (net : Transport ω Req Res ρ) (s : Client) (ctx : Context)
        (req : Req) (user : Option User) (w : ω),
        (∀ (retval : Option ρ) (e : Error) (w2 : ω),
          net.Do ctx s.Client req w = (Except.error e, w2) →
            Client.Do net s ctx req retval user none w = (some e, w2)) ∧
          (∀ (res : Res) (w2 : ω), net.Do ctx s.Client req w = (Except.ok res, w2) →
            Client.Do net s ctx req none user none w = (none, w2)) ∧
          ∀ (res : Res) (w2 w3 : ω) (rv : ρ) (d : Option Error),
            net.Do ctx s.Client req w = (Except.ok res, w2) →
              net.Decode res rv w2 = (d, w3) →
                Client.Do net s ctx req (some rv) user none w =
                  (match d with
                    | some err => if err.Error = "EOF" then none else some err
                    | none => none, w3) := by
  refine ⟨fun _ _ _ => rfl, fun _ _ _ _ _ _ _ => rfl, ?_, ?_⟩
  · intro ω Req Res ρ net s ctx req retval user w a h
    simp [Client.Do, h, DefaultAuthenticator.toAuthenticator,
      DefaultAuthenticator.AuthenticatedClient, NewDefaultAuthenticator]
  · intro ω Req Res ρ net s ctx req user w
    refine ⟨?_, ?_, ?_⟩
    · intro retval e w2 h
      simp [Client.Do, h, DefaultAuthenticator.toAuthenticator,
        DefaultAuthenticator.AuthenticatedClient, NewDefaultAuthenticator]
    · intro res w2 h
      simp [Client.Do, h, DefaultAuthenticator.toAuthenticator,
        DefaultAuthenticator.AuthenticatedClient, NewDefaultAuthenticator]
    · intro res w2 w3 rv d h hd
      cases d with
      | none =>
        simp [Client.Do, h, hd, DefaultAuthenticator.toAuthenticator,
          DefaultAuthenticator.AuthenticatedClient, NewDefaultAuthenticator]
      | some err =>
        by_cases he : err.Error = "EOF" <;>
          simp [Client.Do, h, hd, he, DefaultAuthenticator.toAuthenticator,
            DefaultAuthenticator.AuthenticatedClient, NewDefaultAuthenticator]

/-- Witness of C10: the client built from the test configuration, a nil user and a nil
authenticator.  Against the test server the call succeeds; against a server that
refuses every client but the executor's own it succeeds too; against an unreachable
server it returns the request's error. -/
theorem Client_Do_nil_authenticator_witness :
    Client.Do testServer ⟨some (http.Client.plain (10 * time.Second))⟩ ⟨none⟩ "POST"
          (some ()) none none () =
        (none, ()) ∧
      Client.Do (ownClientOnly (some (http.Client.plain (10 * time.Second))))
          ⟨some (http.Client.plain (10 * time.Second))⟩ ⟨none⟩ "POST" none none none () =
        (none, ()) ∧
      Client.Do unreachableServer ⟨some (http.Client.plain (10 * time.Second))⟩ ⟨none⟩ "POST"
          (some ()) none none () =
        (some (Error.external "connection refused"), ()) :=
  ⟨(Client_Do_nil_authenticator.2.2.2 testServer
        ⟨some (http.Client.plain (10 * time.Second))⟩ ⟨none⟩ "POST" none ()).2.2 "success" ()
      () () none rfl rfl,
    (Client_Do_nil_authenticator.2.2.2
        (ownClientOnly (some (http.Client.plain (10 * time.Second))))
        ⟨some (http.Client.plain (10 * time.Second))⟩ ⟨none⟩ "POST" none ()).2.1 "success" ()
      rfl,
    (Client_Do_nil_authenticator.2.2.2 unreachableServer
        ⟨some (http.Client.plain (10 * time.Second))⟩ ⟨none⟩ "POST" none ()).1 (some ())
      (Error.external "connection refused") () rfl⟩

end httpapi
